import Mathlib

/-!
Shallow embedding of the RESP codec from `src/lib.rs` of the repository
(a Redis wire-protocol implementation in Rust), together with theorems
settling the specification claims about it.

Modelling conventions:
* A Rust byte slice `&[u8]` is a `List Nat` whose elements are byte values.
* A Rust `String` is a `List Nat` of Unicode code points (a Rust `char` cast
  from a byte `b` is the code point `b`; `String::len` is the UTF-8 byte
  length, modelled by `utf8Length`; writing a string to a formatter emits its
  UTF-8 bytes, modelled by `utf8Encode`).
* Rust `i64` is modelled as `Int`, with every arithmetic step that can
  overflow an `i64` in the source (the digit accumulation `num * 10 + d`
  and the negation `num = -num`) passed through `wrap64`, the
  two's-complement wrap of release-build Rust. A debug build panics at
  exactly the steps where `wrap64` is not the identity; theorems meant to
  be build-independent therefore stay inside the overflow-free range.
* Fallible Rust functions returning `ParseResult<T>` are modelled with the
  `PResult` type below; its extra constructor `fault` marks an uncontrolled
  Rust panic (an out-of-bounds slice index), which the source code can reach.
* The recursive-descent parser recurses through array elements; the Lean
  definition threads a fuel argument (initialised to `bytes.length + 1`,
  more than any possible recursion depth) so that the definition is
  structurally recursive and computable by `decide`/`rfl`.
-/

/-- Outcome of a fallible codec operation: a value, a `ParseError`, or an
uncontrolled fault (a Rust panic such as an out-of-bounds index). -/
inductive PResult (E : Type) (α : Type) where
  | ok : α → PResult E α
  | err : E → PResult E α
  | fault : PResult E α
deriving DecidableEq

/-- The five RESP shape tags, mirroring Rust `enum RESPDataType`. -/
inductive RESPDataType where
  | SimpleString
  | Error
  | Integer
  | BulkString
  | Array
deriving DecidableEq

/-- The closed error taxonomy, mirroring Rust `enum ParseError`.
`UnknownDataType` carries the offending byte as a code point, matching the
Rust field `char` obtained from `byte as char`. -/
inductive ParseError where
  | UnknownDataType : Nat → ParseError
  | UnexpectedDataType : RESPDataType → RESPDataType → ParseError
  | NotEnoughBytes : ParseError
  | UnexpectedNonNumericCharacter : Nat → ParseError
  | MissingCLRF : ParseError
  | NegativeValueLength : ParseError
deriving DecidableEq

/-- Shorthand matching Rust `type ParseResult<T> = Result<T, ParseError>`,
extended with the `fault` outcome for panics. -/
abbrev ParseResult (α : Type) := PResult ParseError α

/-- The recursive value model, mirroring Rust `enum RESPValue`.
String payloads are lists of code points; `none` is the protocol null. -/
inductive RESPValue where
  | Integer : Int → RESPValue
  | BulkString : Option (List Nat) → RESPValue
  | SimpleString : List Nat → RESPValue
  | Error : List Nat → RESPValue
  | Array : Option (List RESPValue) → RESPValue

/-- Rust `impl TryFrom<u8> for RESPDataType`: the match over the five tag
bytes `+ - : $ *`, every other byte an `UnknownDataType` error. -/
def RESPDataType_try_from (value : Nat) : ParseResult RESPDataType :=
  if value = 43 then .ok .SimpleString
  else if value = 45 then .ok .Error
  else if value = 58 then .ok .Integer
  else if value = 36 then .ok .BulkString
  else if value = 42 then .ok .Array
  else .err (.UnknownDataType value)

/-- Rust `impl Into<u8> for RESPDataType`. -/
def RESPDataType_into_u8 : RESPDataType → Nat
  | .SimpleString => 43
  | .Error => 45
  | .Integer => 58
  | .BulkString => 36
  | .Array => 42

/-- Rust `RESPDataType::from_bytes`: empty input is `NotEnoughBytes`,
otherwise the first byte is converted and the rest returned. -/
def RESPDataType_from_bytes (bytes : List Nat) : ParseResult (RESPDataType × List Nat) :=
  match bytes with
  | [] => .err .NotEnoughBytes
  | b :: rest =>
    match RESPDataType_try_from b with
    | .ok t => .ok (t, rest)
    | .err e => .err e
    | .fault => .fault

/-- Rust `validate_clrf`: succeeds exactly when the input starts with the
two-byte CR LF sequence, returning what follows. -/
def validate_clrf (bytes : List Nat) : ParseResult (List Nat) :=
  match bytes with
  | a :: b :: rest => if a = 13 ∧ b = 10 then .ok rest else .err .MissingCLRF
  | _ => .err .MissingCLRF

/-- Two's-complement wrap onto the `i64` range
`[-9223372036854775808, 9223372036854775807]` (that is, `[-2^63, 2^63)`).
This is the overflow behaviour of a release-build Rust binary; a debug
build panics at exactly the operations where this function is not the
identity. -/
def wrap64 (x : Int) : Int :=
  (x + 9223372036854775808) % 18446744073709551616 - 9223372036854775808

/-- The digit-accumulation `while` loop of Rust `parse_integer_value`:
scan while the stream is non-empty and the next byte is not CR (13);
a byte outside `'0'..='9'` (48..=57) aborts with
`UnexpectedNonNumericCharacter`; otherwise `num = num * 10 + digit` on the
`i64` accumulator, which wraps (release) via `wrap64` where it
overflows. -/
def scan_digits (num : Int) (bytes : List Nat) : ParseResult (Int × List Nat) :=
  match bytes with
  | [] => .ok (num, [])
  | d :: rest =>
    if d = 13 then .ok (num, d :: rest)
    else if d < 48 ∨ 57 < d then .err (.UnexpectedNonNumericCharacter d)
    else scan_digits (wrap64 (num * 10 + (d - 48 : Nat))) rest

/-- Rust `parse_integer_value`: reads `bytes[0]` unconditionally to test for
a leading minus sign — on an empty slice this is an out-of-bounds index,
i.e. a panic, modelled by `fault`. Then the digit loop runs and the CRLF
terminator is validated; a leading minus negates the accumulated `i64`,
which wraps (release) at `i64::MIN` via `wrap64`. -/
def parse_integer_value (bytes : List Nat) : ParseResult (Int × List Nat) :=
  match bytes with
  | [] => .fault
  | b0 :: rest0 =>
    let is_negative := b0 = 45
    let bytes1 := if is_negative then rest0 else b0 :: rest0
    match scan_digits 0 bytes1 with
    | .ok (num, bytes2) =>
      let num' := if is_negative then wrap64 (-num) else num
      match validate_clrf bytes2 with
      | .ok r => .ok (num', r)
      | .err e => .err e
      | .fault => .fault
    | .err e => .err e
    | .fault => .fault

/-- The accumulation `while` loop of Rust `parse_simple_string_contents`:
while the stream does not start with CRLF, push `bytes[0]` (a panic — hence
`fault` — when the stream is empty) and advance; if the stream becomes
empty after advancing, fail with `MissingCLRF`; on CRLF, return the
accumulated code points and the bytes after the terminator. -/
def simple_string_loop (s : List Nat) (bytes : List Nat) : ParseResult (List Nat × List Nat) :=
  match validate_clrf bytes with
  | .ok rest => .ok (s, rest)
  | _ =>
    match bytes with
    | [] => .fault
    | b :: rest =>
      if rest.isEmpty then .err .MissingCLRF
      else simple_string_loop (s ++ [b]) rest

/-- Rust `parse_simple_string_contents`, starting its loop from the empty
accumulator string. -/
def parse_simple_string_contents (bytes : List Nat) : ParseResult (List Nat × List Nat) :=
  simple_string_loop [] bytes

/-- Rust `parse_array_len`: a CRLF-terminated integer; non-negative values
are lengths, `-1` is the null marker, anything smaller is
`NegativeValueLength`. -/
def parse_array_len (bytes : List Nat) : ParseResult (Option Nat × List Nat) :=
  match parse_integer_value bytes with
  | .ok (len, rest) =>
    if 0 ≤ len then .ok (some len.toNat, rest)
    else if len = -1 then .ok (none, rest)
    else .err .NegativeValueLength
  | .err e => .err e
  | .fault => .fault

/-- Rust `parse_bulk_string_contents`: read the length header via
`parse_array_len`; a present length requires strictly more bytes than the
length (the terminator must follow), else `NotEnoughBytes`; the payload
bytes become the string's code points and the trailing CRLF is validated.
A null header consumes no payload. -/
def parse_bulk_string_contents (bytes : List Nat) : ParseResult (Option (List Nat) × List Nat) :=
  match parse_array_len bytes with
  | .ok (some len, rest) =>
    if rest.length ≤ len then .err .NotEnoughBytes
    else
      match validate_clrf (rest.drop len) with
      | .ok r => .ok (some (rest.take len), r)
      | .err e => .err e
      | .fault => .fault
  | .ok (none, rest) => .ok (none, rest)
  | .err e => .err e
  | .fault => .fault

/-- The element loop of the Rust `RESPValue::parse` array branch
(`(0..len).try_fold`): run the supplied parser `n` times, threading the
remaining bytes, collecting values in order, propagating the first
failure. -/
def elems_loop (p : List Nat → ParseResult (RESPValue × List Nat)) :
    Nat → List Nat → ParseResult (List RESPValue × List Nat)
  | 0, bytes => .ok ([], bytes)
  | n + 1, bytes =>
    match p bytes with
    | .ok (v, rest) =>
      match elems_loop p n rest with
      | .ok (vs, r) => .ok (v :: vs, r)
      | .err e => .err e
      | .fault => .fault
    | .err e => .err e
    | .fault => .fault

/-- Rust `RESPValue::parse`, written with a structural fuel argument so that
the recursion through array elements is structurally decreasing. One fuel
unit is spent per nesting level; since every successful sub-parse consumes
at least one byte before recursing, fuel `bytes.length + 1` (as used by
`RESPValue_parse`) can never run out on a reachable path. -/
def parseF : Nat → List Nat → ParseResult (RESPValue × List Nat)
  | 0, _ => .fault
  | fuel + 1, bytes =>
    match RESPDataType_from_bytes bytes with
    | .ok (data_type, bytes) =>
      match data_type with
      | .Integer =>
        match parse_integer_value bytes with
        | .ok (i, rest) => .ok (.Integer i, rest)
        | .err e => .err e
        | .fault => .fault
      | .BulkString =>
        match parse_bulk_string_contents bytes with
        | .ok (s, rest) => .ok (.BulkString s, rest)
        | .err e => .err e
        | .fault => .fault
      | .SimpleString =>
        match parse_simple_string_contents bytes with
        | .ok (s, rest) => .ok (.SimpleString s, rest)
        | .err e => .err e
        | .fault => .fault
      | .Error =>
        match parse_simple_string_contents bytes with
        | .ok (s, rest) => .ok (.Error s, rest)
        | .err e => .err e
        | .fault => .fault
      | .Array =>
        match parse_array_len bytes with
        | .ok (some len, rest) =>
          match elems_loop (fun b => parseF fuel b) len rest with
          | .ok (vs, r) => .ok (.Array (some vs), r)
          | .err e => .err e
          | .fault => .fault
        | .ok (none, rest) => .ok (.Array none, rest)
        | .err e => .err e
        | .fault => .fault
    | .err e => .err e
    | .fault => .fault

/-- Entry point `RESPValue::parse`: the fuel `bytes.length + 1` dominates
any possible nesting depth of the recursive descent. -/
def RESPValue_parse (bytes : List Nat) : ParseResult (RESPValue × List Nat) :=
  parseF (bytes.length + 1) bytes

/-- Rust `RESPValue::data_type`: the tag of a value's own variant. -/
def RESPValue_data_type : RESPValue → RESPDataType
  | .Integer _ => .Integer
  | .BulkString _ => .BulkString
  | .SimpleString _ => .SimpleString
  | .Error _ => .Error
  | .Array _ => .Array

/-- UTF-8 encoding of one Unicode code point, as Rust's formatter emits it
when writing a `char`. -/
def utf8Char (c : Nat) : List Nat :=
  if c < 128 then [c]
  else if c < 2048 then [192 + c / 64, 128 + c % 64]
  else if c < 65536 then [224 + c / 4096, 128 + c / 64 % 64, 128 + c % 64]
  else [240 + c / 262144, 128 + c / 4096 % 64, 128 + c / 64 % 64, 128 + c % 64]

/-- UTF-8 bytes of a string (list of code points), as written by
`write!` on a Rust `String`. -/
def utf8Encode (s : List Nat) : List Nat :=
  (s.map utf8Char).flatten

/-- Rust `String::len`: the UTF-8 byte length. -/
def utf8Length (s : List Nat) : Nat :=
  (utf8Encode s).length

/-- Decimal digits of a natural number, most significant first (`0` has
the single digit `0`, as Rust's `Display` prints it). -/
def natDigitsBE (n : Nat) : List Nat :=
  if n = 0 then [0] else (Nat.digits 10 n).reverse

/-- Decimal digit bytes of a natural number, most significant first, as
Rust's `Display` for unsigned integers emits them (`0` prints as `"0"`). -/
def natToBytes (n : Nat) : List Nat :=
  (natDigitsBE n).map (fun d => d + 48)

/-- Decimal byte rendering of an `i64` by Rust's `Display`: an optional
leading minus sign (45) followed by the digits of the magnitude. -/
def intToBytes (i : Int) : List Nat :=
  if i < 0 then 45 :: natToBytes (-i).toNat else natToBytes i.toNat

/-- Rust `RESPValue::format`: the per-variant bytes written to the
formatter, with the terminator sequence `clrf` a parameter (the wire mode
passes CR LF, the debug mode its escaped four-character form), and the
final unconditional `write!(f, "{}", clrf)` appended after the match. -/
def format (v : RESPValue) (clrf : List Nat) : List Nat :=
  (match v with
  | .Integer i => 58 :: intToBytes i
  | .BulkString (some s) => 36 :: (natToBytes (utf8Length s) ++ clrf ++ utf8Encode s)
  | .BulkString none => [36, 45, 49]
  | .Error s => 45 :: utf8Encode s
  | .SimpleString s => 43 :: utf8Encode s
  | .Array (some values) => 42 :: (natToBytes values.length ++ clrf ++
      (values.attach.map (fun x => format x.val clrf)).flatten)
  | .Array none => [42, 45, 49]) ++ clrf
termination_by sizeOf v
decreasing_by
  have := x.property
  have h1 : sizeOf x.val < sizeOf values := List.sizeOf_lt_of_mem this
  simp only [RESPValue.Array.sizeOf_spec, Option.some.sizeOf_spec]
  omega

/-- The wire-mode rendering `Display for RESPValue`: `format` with the
literal CR LF terminator. -/
def formatWire (v : RESPValue) : List Nat :=
  format v [13, 10]

/-- The debug-mode rendering `Debug for RESPValue`: `format` with the
escaped terminator `\r\n` written as four printable characters. -/
def formatDebug (v : RESPValue) : List Nat :=
  format v [92, 114, 92, 110]

/-- Rust `enum RESPValueConversionError` (expected tag, actual tag). -/
inductive RESPValueConversionError where
  | DataTypeMismatch : RESPDataType → RESPDataType → RESPValueConversionError
deriving DecidableEq

/-- Rust `impl TryFrom<RESPValue> for i64`. -/
def tryFrom_i64 : RESPValue → Except RESPValueConversionError Int
  | .Integer i => .ok i
  | v => .error (.DataTypeMismatch .Integer (RESPValue_data_type v))

/-- Rust `impl TryFrom<RESPValue> for BulkString` (the nullable-string
wrapper newtype is modelled by its payload `Option (List Nat)`). -/
def tryFrom_BulkString : RESPValue → Except RESPValueConversionError (Option (List Nat))
  | .BulkString s => .ok s
  | v => .error (.DataTypeMismatch .BulkString (RESPValue_data_type v))

/-- Rust `impl TryFrom<RESPValue> for SimpleString` (wrapper modelled by
its payload). -/
def tryFrom_SimpleString : RESPValue → Except RESPValueConversionError (List Nat)
  | .SimpleString s => .ok s
  | v => .error (.DataTypeMismatch .SimpleString (RESPValue_data_type v))

/-- Rust `impl TryFrom<RESPValue> for RESPError` (wrapper modelled by its
payload). -/
def tryFrom_RESPError : RESPValue → Except RESPValueConversionError (List Nat)
  | .Error s => .ok s
  | v => .error (.DataTypeMismatch .Error (RESPValue_data_type v))

/-- The element conversion of Rust's
`impl<T> TryFrom<RESPValue> for Option<Vec<T>>`:
`values.into_iter().map(T::try_from).collect::<Result<Vec<T>, _>>()`,
converting in order and stopping at the first failure. -/
def convert_all (conv : RESPValue → Except RESPValueConversionError α) :
    List RESPValue → Except RESPValueConversionError (List α)
  | [] => .ok []
  | v :: vs =>
    match conv v with
    | .ok a =>
      match convert_all conv vs with
      | .ok rest => .ok (a :: rest)
      | .error e => .error e
    | .error e => .error e

/-- Rust `impl<T> TryFrom<RESPValue> for Option<Vec<T>>`: a present array
converts all elements (first failure propagated unwrapped), a null array
converts to `none`, anything else is a `DataTypeMismatch` against the
array tag. -/
def tryFrom_array (conv : RESPValue → Except RESPValueConversionError α) :
    RESPValue → Except RESPValueConversionError (Option (List α))
  | .Array (some values) =>
    match convert_all conv values with
    | .ok converted => .ok (some converted)
    | .error e => .error e
  | .Array none => .ok none
  | v => .error (.DataTypeMismatch .Array (RESPValue_data_type v))

/-- Whether a byte list contains the two-byte CR LF pair at adjacent
positions (the only thing that terminates a Status or Error line). -/
def hasCRLF : List Nat → Bool
  | [] => false
  | [_] => false
  | a :: b :: rest => (a = 13 && b = 10) || hasCRLF (b :: rest)

/-- Scalar values whose wire rendering the parser maps back to the value
itself: integers in the `i64` range (the whole value domain of the Rust
field; the embedding's `Int` admits ghost values no program run can hold);
present bulk strings of ASCII code points whose length is representable
(a Rust allocation never exceeds `isize::MAX` bytes, so a `String` length
always is); simple and error strings of ASCII code points containing no
CR LF pair. Null markers and arrays are excluded. -/
def roundTripScalar : RESPValue → Bool
  | .Integer i => -9223372036854775808 ≤ i && i < 9223372036854775808
  | .BulkString (some s) => s.all (fun c => c < 128) && s.length < 9223372036854775808
  | .BulkString none => false
  | .SimpleString s => s.all (fun c => c < 128) && !hasCRLF s
  | .Error s => s.all (fun c => c < 128) && !hasCRLF s
  | .Array _ => false

/-! ## Decimal digit lemmas -/

theorem natDigitsBE_lt (n : Nat) : ∀ d ∈ natDigitsBE n, d < 10 := by
  intro d hd
  by_cases h : n = 0
  · simp [natDigitsBE, h] at hd
    omega
  · simp [natDigitsBE, h, List.mem_reverse] at hd
    exact Nat.digits_lt_base (by norm_num) hd

theorem natDigitsBE_ne_nil (n : Nat) : natDigitsBE n ≠ [] := by
  by_cases h : n = 0
  · simp [natDigitsBE, h]
  · simp [natDigitsBE, h, Nat.digits_ne_nil_iff_ne_zero]

theorem digits_foldr (n : Nat) :
    (Nat.digits 10 n).foldr (fun (d : Nat) (a : Int) => a * 10 + (d : Int)) 0 = n := by
  induction n using Nat.strong_induction_on with
  | _ n ih =>
    rcases Nat.eq_zero_or_pos n with h | h
    · simp [h]
    · rw [Nat.digits_def' (by norm_num : 1 < 10) h]
      simp only [List.foldr_cons]
      rw [ih (n / 10) (Nat.div_lt_self h (by norm_num))]
      push_cast
      omega

theorem natDigitsBE_foldl (n : Nat) :
    (natDigitsBE n).foldl (fun (a : Int) (d : Nat) => a * 10 + (d : Int)) 0 = n := by
  by_cases h : n = 0
  · simp [natDigitsBE, h]
  · rw [natDigitsBE, if_neg h, List.foldl_reverse]
    exact digits_foldr n

theorem natToBytes_cons (n : Nat) :
    ∃ b bs, natToBytes n = b :: bs ∧ 48 ≤ b := by
  unfold natToBytes
  rcases hds : natDigitsBE n with _ | ⟨d, ds⟩
  · exact absurd hds (natDigitsBE_ne_nil n)
  · exact ⟨d + 48, ds.map (fun d => d + 48), rfl, by omega⟩

theorem natDigitsBE_split (n : Nat) (h : 10 ≤ n) :
    natDigitsBE n = natDigitsBE (n / 10) ++ [n % 10] := by
  have hn : ¬(n = 0) := by omega
  have hn10 : ¬(n / 10 = 0) := by omega
  rw [natDigitsBE, natDigitsBE, if_neg hn, if_neg hn10,
    Nat.digits_def' (by norm_num : 1 < 10) (by omega : 0 < n), List.reverse_cons]

/-! ## Wrapping arithmetic lemmas -/

theorem wrap64_eq_self (x : Int) (h1 : -9223372036854775808 ≤ x)
    (h2 : x < 9223372036854775808) : wrap64 x = x := by
  rw [wrap64, Int.emod_eq_of_lt (by omega) (by omega)]
  omega

theorem foldl_digits_ge (ds : List Nat) (acc : Int) (h : 0 ≤ acc) :
    acc ≤ ds.foldl (fun (a : Int) (d : Nat) => a * 10 + (d : Int)) acc := by
  induction ds generalizing acc with
  | nil => exact le_rfl
  | cons d ds ih =>
    have hd : (0 : Int) ≤ (d : Int) := Int.natCast_nonneg d
    have hstep : acc ≤ acc * 10 + (d : Int) := by omega
    exact le_trans hstep (ih (acc * 10 + (d : Int)) (by omega))

theorem foldl_wrap64_eq (ds : List Nat) (acc : Int) (hacc : 0 ≤ acc)
    (hlt : ds.foldl (fun (a : Int) (d : Nat) => a * 10 + (d : Int)) acc
      < 9223372036854775808) :
    ds.foldl (fun (a : Int) (d : Nat) => wrap64 (a * 10 + (d : Int))) acc =
      ds.foldl (fun (a : Int) (d : Nat) => a * 10 + (d : Int)) acc := by
  induction ds generalizing acc with
  | nil => rfl
  | cons d ds ih =>
    have hd : (0 : Int) ≤ (d : Int) := Int.natCast_nonneg d
    have h1 : (0 : Int) ≤ acc * 10 + (d : Int) := by omega
    have h2 : acc * 10 + (d : Int) ≤
        ds.foldl (fun (a : Int) (d : Nat) => a * 10 + (d : Int)) (acc * 10 + (d : Int)) :=
      foldl_digits_ge ds _ h1
    rw [List.foldl_cons] at hlt
    simp only [List.foldl_cons]
    rw [wrap64_eq_self (acc * 10 + (d : Int)) (by omega) (by omega)]
    exact ih (acc * 10 + (d : Int)) h1 hlt

/-! ## Digit-scanning lemmas -/

theorem scan_digits_append (ds : List Nat) (acc : Int) (r : List Nat)
    (h : ∀ d ∈ ds, d < 10) :
    scan_digits acc (ds.map (fun d => d + 48) ++ 13 :: r) =
      .ok (ds.foldl (fun (a : Int) (d : Nat) => wrap64 (a * 10 + (d : Int))) acc, 13 :: r) := by
  induction ds generalizing acc with
  | nil => simp [scan_digits]
  | cons d ds ih =>
    have hd : d < 10 := h d (List.mem_cons_self d ds)
    have hne : ¬(d + 48 = 13) := by omega
    have hrange : ¬(d + 48 < 48 ∨ 57 < d + 48) := by omega
    simp only [List.map_cons, List.cons_append, scan_digits, hne, if_false, hrange,
      List.foldl_cons]
    rw [show d + 48 - 48 = d from by omega]
    exact ih (wrap64 (acc * 10 + (d : Int))) (fun x hx => h x (List.mem_cons_of_mem d hx))

theorem scan_digits_natToBytes (n : Nat) (r : List Nat) (hn : n < 9223372036854775808) :
    scan_digits 0 (natToBytes n ++ 13 :: r) = .ok ((n : Int), 13 :: r) := by
  unfold natToBytes
  rw [scan_digits_append (natDigitsBE n) 0 r (natDigitsBE_lt n),
    foldl_wrap64_eq (natDigitsBE n) 0 le_rfl
      (by rw [natDigitsBE_foldl]; exact_mod_cast hn),
    natDigitsBE_foldl]

/-- Scanning the decimal digits of `2^63` (one past `i64::MAX`) wraps at the
last accumulation step and produces `i64::MIN`, the release-build behaviour
a Rust binary shows when parsing the numeral of `i64::MIN`. -/
theorem scan_digits_min (r : List Nat) :
    scan_digits 0 (natToBytes 9223372036854775808 ++ 13 :: r) =
      .ok (-9223372036854775808, 13 :: r) := by
  unfold natToBytes
  rw [scan_digits_append (natDigitsBE 9223372036854775808) 0 r
      (natDigitsBE_lt 9223372036854775808),
    natDigitsBE_split 9223372036854775808 (by norm_num),
    show (9223372036854775808 : Nat) / 10 = 922337203685477580 from by norm_num,
    show (9223372036854775808 : Nat) % 10 = 8 from by norm_num,
    List.foldl_append,
    foldl_wrap64_eq (natDigitsBE 922337203685477580) 0 le_rfl
      (by rw [natDigitsBE_foldl]; norm_num),
    natDigitsBE_foldl]
  norm_num [wrap64]

/-! ## Integer-field parsing lemmas -/

theorem parse_integer_value_natToBytes (n : Nat) (r : List Nat)
    (hn : n < 9223372036854775808) :
    parse_integer_value (natToBytes n ++ 13 :: 10 :: r) = .ok ((n : Int), r) := by
  obtain ⟨b, bs, hb, hge⟩ := natToBytes_cons n
  have h45 : ¬(b = 45) := by omega
  have hscan : scan_digits 0 (b :: (bs ++ 13 :: 10 :: r)) = .ok ((n : Int), 13 :: 10 :: r) := by
    have := scan_digits_natToBytes n (10 :: r) hn
    rwa [hb, List.cons_append] at this
  rw [hb, List.cons_append, parse_integer_value]
  simp [h45, hscan, validate_clrf]

theorem parse_integer_value_intToBytes (i : Int) (r : List Nat)
    (hlo : -9223372036854775808 ≤ i) (hhi : i < 9223372036854775808) :
    parse_integer_value (intToBytes i ++ 13 :: 10 :: r) = .ok (i, r) := by
  by_cases hneg : i < 0
  · rcases eq_or_lt_of_le hlo with hmin | hgt
    · rw [← hmin]
      rw [intToBytes, if_pos (by norm_num : (-9223372036854775808 : Int) < 0),
        show ((-(-9223372036854775808 : Int)).toNat) = 9223372036854775808 from by rfl,
        List.cons_append, parse_integer_value]
      have hscan := scan_digits_min (10 :: r)
      simp only [eq_self_iff_true, if_true, hscan, validate_clrf, PResult.ok.injEq,
        Prod.mk.injEq, and_true]
      norm_num [wrap64]
    · rw [intToBytes, if_pos hneg, List.cons_append, parse_integer_value]
      have hscan := scan_digits_natToBytes (-i).toNat (10 :: r) (by omega)
      simp only [eq_self_iff_true, if_true, hscan, validate_clrf, PResult.ok.injEq,
        Prod.mk.injEq, and_true]
      have hw : wrap64 (-(((-i).toNat : Nat) : Int)) = -(((-i).toNat : Nat) : Int) :=
        wrap64_eq_self _ (by omega) (by omega)
      rw [hw]
      omega
  · rw [intToBytes, if_neg hneg]
    have := parse_integer_value_natToBytes i.toNat r (by omega)
    rw [this]
    congr 2
    omega

theorem parse_array_len_natToBytes (n : Nat) (r : List Nat)
    (hn : n < 9223372036854775808) :
    parse_array_len (natToBytes n ++ 13 :: 10 :: r) = .ok (some n, r) := by
  rw [parse_array_len, parse_integer_value_natToBytes n r hn]
  simp

theorem parse_array_len_negative (i : Int) (r : List Nat) (h : i < -1)
    (hlo : -9223372036854775808 ≤ i) :
    parse_array_len (intToBytes i ++ 13 :: 10 :: r) = .err .NegativeValueLength := by
  rw [parse_array_len, parse_integer_value_intToBytes i r hlo (by omega)]
  have h0 : ¬(0 ≤ i) := by omega
  have h1 : ¬(i = -1) := by omega
  simp only [h0, if_false, h1]

/-! ## UTF-8 lemmas for ASCII content -/

theorem utf8Encode_ascii (s : List Nat) (h : ∀ c ∈ s, c < 128) : utf8Encode s = s := by
  induction s with
  | nil => rfl
  | cons c cs ih =>
    have hc : c < 128 := h c (List.mem_cons_self c cs)
    simp only [utf8Encode, List.map_cons, List.flatten_cons, utf8Char, hc, if_true]
    rw [show (cs.map utf8Char).flatten = utf8Encode cs from rfl,
      ih (fun x hx => h x (List.mem_cons_of_mem c hx))]
    rfl

theorem utf8Length_ascii (s : List Nat) (h : ∀ c ∈ s, c < 128) :
    utf8Length s = s.length := by
  rw [utf8Length, utf8Encode_ascii s h]

/-! ## Status and Error scanning lemmas -/

theorem validate_clrf_not_crlf (a : Nat) (l : List Nat)
    (h : ¬(a = 13 ∧ l.head? = some 10)) :
    validate_clrf (a :: l) = .err .MissingCLRF := by
  cases l with
  | nil => rfl
  | cons b l' =>
    rw [validate_clrf, if_neg]
    rintro ⟨h1, h2⟩
    exact h ⟨h1, by simp [h2]⟩

theorem hasCRLF_cons_false (a : Nat) (t : List Nat) (h : hasCRLF (a :: t) = false) :
    hasCRLF t = false := by
  cases t with
  | nil => rfl
  | cons b t' =>
    rw [hasCRLF] at h
    exact (Bool.or_eq_false_iff.mp h).2

theorem simple_string_loop_terminated (s : List Nat) (acc : List Nat) (r : List Nat)
    (h : hasCRLF s = false) :
    simple_string_loop acc (s ++ 13 :: 10 :: r) = .ok (acc ++ s, r) := by
  induction s generalizing acc with
  | nil => simp [simple_string_loop, validate_clrf]
  | cons a t ih =>
    have hne : ¬(a = 13 ∧ (t ++ 13 :: 10 :: r).head? = some 10) := by
      rintro ⟨ha, hhead⟩
      subst ha
      cases t with
      | nil => simp at hhead
      | cons b t' =>
        simp at hhead
        subst hhead
        rw [hasCRLF] at h
        simp at h
    have hval := validate_clrf_not_crlf a (t ++ 13 :: 10 :: r) hne
    rw [List.cons_append, simple_string_loop, hval]
    have hemp : (t ++ 13 :: 10 :: r).isEmpty = false := by
      cases t <;> rfl
    simp only [hemp, if_false, Bool.false_eq_true]
    rw [ih (acc ++ [a]) (hasCRLF_cons_false a t h)]
    simp

theorem simple_string_loop_exhausted (s : List Nat) (acc : List Nat)
    (hne : s ≠ []) (h : hasCRLF s = false) :
    simple_string_loop acc s = .err .MissingCLRF := by
  induction s generalizing acc with
  | nil => exact absurd rfl hne
  | cons a t ih =>
    cases t with
    | nil =>
      rw [simple_string_loop, validate_clrf_not_crlf a [] (by simp)]
      rfl
    | cons b t' =>
      have hne2 : ¬(a = 13 ∧ (b :: t').head? = some 10) := by
        rintro ⟨ha, hhead⟩
        subst ha
        simp at hhead
        subst hhead
        rw [hasCRLF] at h
        simp at h
      rw [simple_string_loop, validate_clrf_not_crlf a (b :: t') hne2]
      simp only [List.isEmpty_cons, if_false, Bool.false_eq_true]
      exact ih (acc ++ [a]) (by simp) (hasCRLF_cons_false a (b :: t') h)

/-! ## Typed-projection lemmas -/

theorem convert_all_eq_mapM {α : Type} (conv : RESPValue → Except RESPValueConversionError α)
    (vs : List RESPValue) : convert_all conv vs = vs.mapM conv := by
  induction vs with
  | nil => rfl
  | cons v vs ih =>
    rw [convert_all, List.mapM_cons, ih]
    cases conv v with
    | ok a =>
      cases hm : vs.mapM conv with
      | ok l => rfl
      | error e => rfl
    | error e => rfl

theorem convert_all_first_error {α : Type}
    (conv : RESPValue → Except RESPValueConversionError α)
    (pre : List RESPValue) (a : List α) (bad : RESPValue)
    (e : RESPValueConversionError) (post : List RESPValue)
    (hpre : convert_all conv pre = .ok a) (hbad : conv bad = .error e) :
    convert_all conv (pre ++ bad :: post) = .error e := by
  induction pre generalizing a with
  | nil => simp [convert_all, hbad]
  | cons p ps ih =>
    rw [convert_all] at hpre
    rw [List.cons_append, convert_all]
    cases hp : conv p with
    | ok a0 =>
      rw [hp] at hpre
      cases hps : convert_all conv ps with
      | ok rest => rw [ih rest hps]
      | error e' => rw [hps] at hpre; exact absurd hpre (by simp)
    | error e' => rw [hp] at hpre; exact absurd hpre (by simp)

/-! ## Formatter shape lemma -/

theorem format_array_some (vs : List RESPValue) (clrf : List Nat) :
    format (.Array (some vs)) clrf =
      42 :: (natToBytes vs.length ++ clrf ++ (vs.map (fun v => format v clrf)).flatten) ++ clrf := by
  rw [format]
  congr 2
  rw [List.map_attach]
  simp [List.pmap_eq_map]

/-! ## Tag dispatch lemmas for the parser entry point -/

theorem parse_cons_integer (l : List Nat) : RESPValue_parse (58 :: l) =
    (match parse_integer_value l with
      | .ok (i, r) => .ok (.Integer i, r)
      | .err e => .err e
      | .fault => .fault) := rfl

theorem parse_cons_simple (l : List Nat) : RESPValue_parse (43 :: l) =
    (match parse_simple_string_contents l with
      | .ok (s, r) => .ok (.SimpleString s, r)
      | .err e => .err e
      | .fault => .fault) := rfl

theorem parse_cons_error (l : List Nat) : RESPValue_parse (45 :: l) =
    (match parse_simple_string_contents l with
      | .ok (s, r) => .ok (.Error s, r)
      | .err e => .err e
      | .fault => .fault) := rfl

theorem parse_cons_bulk (l : List Nat) : RESPValue_parse (36 :: l) =
    (match parse_bulk_string_contents l with
      | .ok (s, r) => .ok (.BulkString s, r)
      | .err e => .err e
      | .fault => .fault) := rfl

theorem parse_cons_array_err (l : List Nat) (e : ParseError)
    (h : parse_array_len l = .err e) : RESPValue_parse (42 :: l) = .err e := by
  rw [RESPValue_parse]
  show ((match parse_array_len l with
    | .ok (some len, rest) =>
      match elems_loop (fun b => parseF (l.length + 1) b) len rest with
      | .ok (vs, r) => .ok (.Array (some vs), r)
      | .err e => .err e
      | .fault => .fault
    | .ok (none, rest) => .ok (.Array none, rest)
    | .err e => .err e
    | .fault => .fault : ParseResult (RESPValue × List Nat))) = .err e
  rw [h]

/-! ## Claim theorems -/

/-- C10: parsing the empty byte sequence returns the `NotEnoughBytes` error
(not `UnknownTag` or `MissingTerminator`, and no fault); this is the
behaviour of the tag-reading step before any dispatch happens. -/
theorem C10_empty_input : RESPValue_parse [] = .err .NotEnoughBytes := rfl

/-- C1: the claim that parse always returns a value or a `ParseError` and
never faults is contradicted by the code. On an input that ends immediately
after the tag byte, the integer scanner and the simple-string scanner index
`bytes[0]` on an empty slice, a panic: a lone `:`, `$`, `*`, `-` or `+` all
fault instead of returning an error value. -/
theorem C1_lone_tag_faults :
    RESPValue_parse [58] = .fault ∧ RESPValue_parse [36] = .fault ∧
      RESPValue_parse [42] = .fault ∧ RESPValue_parse [45] = .fault ∧
      RESPValue_parse [43] = .fault :=
  ⟨rfl, rfl, rfl, rfl, rfl⟩

/-- C5: `Binary(None)` and `Binary(Some(""))` render in wire mode to the
distinct byte sequences `$-1\r\n` and `$0\r\n\r\n`, and each of those parses
back to the respective distinct variant with nothing left over. -/
theorem C5_null_distinction :
    formatWire (.BulkString none) = [36, 45, 49, 13, 10] ∧
    formatWire (.BulkString (some [])) = [36, 48, 13, 10, 13, 10] ∧
    RESPValue_parse [36, 45, 49, 13, 10] = .ok (.BulkString none, []) ∧
    RESPValue_parse [36, 48, 13, 10, 13, 10] = .ok (.BulkString (some []), []) ∧
    ([36, 45, 49, 13, 10] : List Nat) ≠ [36, 48, 13, 10, 13, 10] ∧
    RESPValue.BulkString none ≠ RESPValue.BulkString (some []) := by
  refine ⟨?_, ?_, rfl, rfl, by decide, by simp⟩
  · simp [formatWire, format]
  · simp [formatWire, format, natToBytes, natDigitsBE, utf8Length, utf8Encode]

/-- C4 counterexample: the claim says parsing `$5\r\nhello` (payload present
but no terminator) yields `MissingTerminator`; the code returns
`NotEnoughBytes` instead (its own test asserts exactly this), because the
bulk reader demands strictly more bytes than the declared length. -/
theorem C4_counterexample :
    RESPValue_parse [36, 53, 13, 10, 104, 101, 108, 108, 111] = .err .NotEnoughBytes ∧
      ParseError.NotEnoughBytes ≠ ParseError.MissingCLRF :=
  ⟨rfl, by decide⟩

/-- C4 amended: both `$5\r\nhell` (payload one byte short) and `$5\r\nhello`
(payload present but nothing after it) yield `NotEnoughBytes`; the
`MissingTerminator` error arises only once more than `len` bytes are
available but the two bytes after the payload are not CRLF, as in
`$5\r\nhelloo`. -/
theorem C4_truncation :
    RESPValue_parse [36, 53, 13, 10, 104, 101, 108, 108] = .err .NotEnoughBytes ∧
    RESPValue_parse [36, 53, 13, 10, 104, 101, 108, 108, 111] = .err .NotEnoughBytes ∧
    RESPValue_parse [36, 53, 13, 10, 104, 101, 108, 108, 111, 111] = .err .MissingCLRF :=
  ⟨rfl, rfl, rfl⟩

/-- C3 counterexample: the claim says a present aggregate renders to the tag
byte, the decimal count and one CRLF followed by the element encodings and
no further bytes; the empty array actually renders to `*0\r\n\r\n` — the
formatter appends its universal trailing CRLF after the aggregate as well —
which differs from the claimed `*0\r\n`. -/
theorem C3_counterexample :
    formatWire (.Array (some [])) = [42, 48, 13, 10, 13, 10] ∧
      ([42, 48, 13, 10, 13, 10] : List Nat) ≠ [42, 48, 13, 10] := by
  refine ⟨?_, by decide⟩
  simp [formatWire, format, natToBytes, natDigitsBE]

/-- C3 amended: a present aggregate renders as the tag byte `*`, the decimal
count, one CRLF, the concatenation of each element's own full wire
encoding, and then one additional CRLF (the formatter's unconditional
trailing terminator); `Array(None)` renders exactly as `*-1\r\n`. -/
theorem C3_array_format :
    (∀ vs : List RESPValue, formatWire (.Array (some vs)) =
      42 :: natToBytes vs.length ++ [13, 10] ++ (vs.map formatWire).flatten ++ [13, 10]) ∧
    formatWire (.Array none) = [42, 45, 49, 13, 10] := by
  constructor
  · intro vs
    rw [formatWire, format_array_some]
    rw [show formatWire = fun v => format v [13, 10] from rfl]
    simp
  · simp [formatWire, format]

/-- C2 counterexample: the round-trip claim fails for null-free values
containing a present array at a non-final position: the formatter emits an
extra CRLF after the inner array, so the parser, expecting the next
element, hits the stray CR as a tag byte and fails with `UnknownTag`. -/
theorem C2_counterexample :
    formatWire (.Array (some [.Array (some []), .Integer 5])) =
      [42, 50, 13, 10, 42, 48, 13, 10, 13, 10, 58, 53, 13, 10, 13, 10] ∧
    RESPValue_parse [42, 50, 13, 10, 42, 48, 13, 10, 13, 10, 58, 53, 13, 10, 13, 10] =
      .err (.UnknownDataType 13) := by
  refine ⟨?_, rfl⟩
  simp [formatWire, format, natToBytes, natDigitsBE, intToBytes]

set_option maxRecDepth 8192 in
/-- C6 counterexample: the original claim quantifies over every integer
below -1, but the program's length accumulator is an `i64`. For the length
field -9223372036854775809 (one below `i64::MIN`) a release build wraps:
scanning the magnitude 9223372036854775809 wraps to -9223372036854775807,
and the final negation yields 9223372036854775807 = `i64::MAX`, so the
header is accepted as a huge non-negative length and both the Binary and
the Aggregate parse fail with `NotEnoughBytes`, not `NegativeValueLength`
(a debug build panics at the overflowing multiply instead). -/
theorem C6_counterexample :
    intToBytes (-9223372036854775809) =
      [45, 57, 50, 50, 51, 51, 55, 50, 48, 51, 54, 56, 53, 52, 55, 55, 53, 56, 48, 57] ∧
    RESPValue_parse (36 :: (intToBytes (-9223372036854775809) ++ 13 :: 10 :: [])) =
      .err .NotEnoughBytes ∧
    RESPValue_parse (42 :: (intToBytes (-9223372036854775809) ++ 13 :: 10 :: [])) =
      .err .NotEnoughBytes ∧
    ParseError.NotEnoughBytes ≠ ParseError.NegativeValueLength := by
  have h1 : intToBytes (-9223372036854775809) =
      [45, 57, 50, 50, 51, 51, 55, 50, 48, 51, 54, 56, 53, 52, 55, 55, 53, 56, 48, 57] := by
    simp [intToBytes, natToBytes, natDigitsBE]
  refine ⟨h1, ?_, ?_, by decide⟩
  · rw [h1]; rfl
  · rw [h1]; rfl

/-- C6 amended: for every `i64`-representable integer strictly between
`i64::MIN` (exclusive) and -1, parsing a Binary or Aggregate message whose
length field is that integer returns the `NegativeValueLength` error — it
neither succeeds, nor clamps, nor faults. In this range the digit
accumulation and the negation never overflow, so the result is the same in
release and debug builds. (At exactly `i64::MIN` the modelled release
build still yields `NegativeValueLength` by wrapping twice, but a debug
build panics; the amended claim conservatively excludes that boundary.) -/
theorem C6_negative_length (i : Int) (r : List Nat) (h : i < -1)
    (hlo : -9223372036854775808 < i) :
    RESPValue_parse (36 :: (intToBytes i ++ 13 :: 10 :: r)) = .err .NegativeValueLength ∧
      RESPValue_parse (42 :: (intToBytes i ++ 13 :: 10 :: r)) = .err .NegativeValueLength := by
  have hlen := parse_array_len_negative i r h (le_of_lt hlo)
  constructor
  · rw [parse_cons_bulk, parse_bulk_string_contents, hlen]
  · exact parse_cons_array_err _ _ hlen

/-- C6 witness: the length field -2, comfortably inside the `i64` range, on
a bulk-string and an array header is rejected with `NegativeValueLength`. -/
theorem C6_negative_length_witness :
    (-2 : Int) < -1 ∧ (-9223372036854775808 : Int) < -2 ∧
    RESPValue_parse (36 :: (intToBytes (-2) ++ 13 :: 10 :: [])) = .err .NegativeValueLength ∧
    RESPValue_parse (42 :: (intToBytes (-2) ++ 13 :: 10 :: [])) = .err .NegativeValueLength :=
  ⟨by decide, by decide, (C6_negative_length (-2) [] (by decide) (by decide)).1,
    (C6_negative_length (-2) [] (by decide) (by decide)).2⟩

/-- C7 amended: when parsing a Status or Error message a lone CR not
followed by LF is accumulated as ordinary content — `+OK\rOK\r\n` parses to
the simple string `OK\rOK` with nothing left over — and when the input is
exhausted before a CRLF pair is found the result is `MissingTerminator`,
provided at least one content byte follows the tag (with zero content bytes
the scanner faults instead; see the counterexample). -/
theorem C7_simple_string_scanning :
    RESPValue_parse [43, 79, 75, 13, 79, 75, 13, 10] =
      .ok (.SimpleString [79, 75, 13, 79, 75], []) ∧
    ∀ s : List Nat, s ≠ [] → hasCRLF s = false →
      RESPValue_parse (43 :: s) = .err .MissingCLRF ∧
        RESPValue_parse (45 :: s) = .err .MissingCLRF := by
  refine ⟨rfl, fun s hne h => ⟨?_, ?_⟩⟩
  · rw [parse_cons_simple, parse_simple_string_contents,
      simple_string_loop_exhausted s [] hne h]
  · rw [parse_cons_error, parse_simple_string_contents,
      simple_string_loop_exhausted s [] hne h]

/-- C7 witness: the input `+X`, exhausted before any CRLF, yields
`MissingTerminator`, and likewise `-X`. -/
theorem C7_simple_string_scanning_witness :
    ([88] : List Nat) ≠ [] ∧ hasCRLF [88] = false ∧
    RESPValue_parse [43, 88] = .err .MissingCLRF ∧
      RESPValue_parse [45, 88] = .err .MissingCLRF :=
  ⟨by decide, by decide,
    (C7_simple_string_scanning.2 [88] (by decide) (by decide)).1,
    (C7_simple_string_scanning.2 [88] (by decide) (by decide)).2⟩

/-- C7 counterexample: the claim states that an input exhausted before a
CRLF pair is found yields `MissingTerminator`; but the input consisting of
the Status tag alone is exhausted with no CRLF and the code faults (it
indexes the empty slice) instead of returning that error. -/
theorem C7_counterexample :
    RESPValue_parse [43] = .fault ∧
      (PResult.fault : ParseResult (RESPValue × List Nat)) ≠ .err .MissingCLRF :=
  ⟨rfl, by simp⟩

/-- C9: the tag and byte conversions are mutually inverse on the five-tag
set — converting any tag to its byte and back yields the tag, a recognized
byte converted to a tag maps back to the same byte, and every other byte in
the u8 domain is rejected with `UnknownTag` of that byte, never a
default. -/
theorem C9_tag_bijection :
    (∀ t : RESPDataType, RESPDataType_try_from (RESPDataType_into_u8 t) = .ok t) ∧
    (∀ (b : Nat) (t : RESPDataType),
      RESPDataType_try_from b = .ok t → RESPDataType_into_u8 t = b) ∧
    (∀ b : Nat, b < 256 → b ∉ ([43, 45, 58, 36, 42] : List Nat) →
      RESPDataType_try_from b = .err (.UnknownDataType b)) := by
  refine ⟨fun t => by cases t <;> rfl, ?_, ?_⟩
  · intro b t h
    rw [RESPDataType_try_from] at h
    split_ifs at h with h1 h2 h3 h4 h5
    · injection h with h0; subst h0; exact h1.symm
    · injection h with h0; subst h0; exact h2.symm
    · injection h with h0; subst h0; exact h3.symm
    · injection h with h0; subst h0; exact h4.symm
    · injection h with h0; subst h0; exact h5.symm
  · intro b hb hmem
    simp only [List.mem_cons, List.mem_singleton, not_or] at hmem
    obtain ⟨h1, h2, h3, h4, h5⟩ := hmem
    simp [RESPDataType_try_from, h1, h2, h3, h4, h5]

/-- C9 witness: the byte of the Integer tag maps back to the Integer tag and
to the byte 58, and the unrecognized byte 120 is rejected with
`UnknownTag(120)`. -/
theorem C9_tag_bijection_witness :
    RESPDataType_try_from 58 = .ok .Integer ∧ RESPDataType_into_u8 .Integer = 58 ∧
    (120 : Nat) < 256 ∧ RESPDataType_try_from 120 = .err (.UnknownDataType 120) :=
  ⟨C9_tag_bijection.1 .Integer,
    C9_tag_bijection.2.1 58 .Integer (C9_tag_bijection.1 .Integer),
    by decide, C9_tag_bijection.2.2 120 (by decide) (by decide)⟩

/-- C8: every typed projection applied to a value of a non-matching variant
returns `DataTypeMismatch(expected tag, actual tag)` with the actual tag
computed from the value's own variant; `Aggregate(None)` projected to an
integer yields `DataTypeMismatch(Integer, Aggregate)`; the array projection
converts a present array's elements in order — equal to the monadic
element-wise map — with the first element failure returned unwrapped, and a
null array converts to the null result. -/
theorem C8_typed_projections :
    (∀ v : RESPValue, RESPValue_data_type v ≠ .Integer →
      tryFrom_i64 v = .error (.DataTypeMismatch .Integer (RESPValue_data_type v))) ∧
    (∀ v : RESPValue, RESPValue_data_type v ≠ .BulkString →
      tryFrom_BulkString v = .error (.DataTypeMismatch .BulkString (RESPValue_data_type v))) ∧
    (∀ v : RESPValue, RESPValue_data_type v ≠ .SimpleString →
      tryFrom_SimpleString v = .error (.DataTypeMismatch .SimpleString (RESPValue_data_type v))) ∧
    (∀ v : RESPValue, RESPValue_data_type v ≠ .Error →
      tryFrom_RESPError v = .error (.DataTypeMismatch .Error (RESPValue_data_type v))) ∧
    (∀ (α : Type) (conv : RESPValue → Except RESPValueConversionError α) (v : RESPValue),
      RESPValue_data_type v ≠ .Array →
      tryFrom_array conv v = .error (.DataTypeMismatch .Array (RESPValue_data_type v))) ∧
    tryFrom_i64 (.Array none) = .error (.DataTypeMismatch .Integer .Array) ∧
    (∀ (α : Type) (conv : RESPValue → Except RESPValueConversionError α),
      tryFrom_array conv (.Array none) = .ok none) ∧
    (∀ (α : Type) (conv : RESPValue → Except RESPValueConversionError α)
      (vs : List RESPValue),
      tryFrom_array conv (.Array (some vs)) = (vs.mapM conv).map some) ∧
    (∀ (α : Type) (conv : RESPValue → Except RESPValueConversionError α)
      (pre : List RESPValue) (a : List α) (bad : RESPValue)
      (e : RESPValueConversionError) (post : List RESPValue),
      convert_all conv pre = .ok a → conv bad = .error e →
      tryFrom_array conv (.Array (some (pre ++ bad :: post))) = .error e) := by
  refine ⟨?_, ?_, ?_, ?_, ?_, rfl, fun α conv => rfl, ?_, ?_⟩
  · intro v hv
    cases v <;> first | exact absurd rfl hv | rfl
  · intro v hv
    cases v <;> first | exact absurd rfl hv | rfl
  · intro v hv
    cases v <;> first | exact absurd rfl hv | rfl
  · intro v hv
    cases v <;> first | exact absurd rfl hv | rfl
  · intro α conv v hv
    cases v <;> first | exact absurd rfl hv | rfl
  · intro α conv vs
    show (match convert_all conv vs with
      | .ok converted => (Except.ok (some converted) :
          Except RESPValueConversionError (Option (List α)))
      | .error e => .error e) = (vs.mapM conv).map some
    rw [convert_all_eq_mapM]
    cases hm : vs.mapM conv <;> rfl
  · intro α conv pre a bad e post hpre hbad
    show (match convert_all conv (pre ++ bad :: post) with
      | .ok converted => (Except.ok (some converted) :
          Except RESPValueConversionError (Option (List α)))
      | .error e => .error e) = .error e
    rw [convert_all_first_error conv pre a bad e post hpre hbad]

/-- C8 witness: projecting a null array as an integer yields
`DataTypeMismatch(Integer, Aggregate)`, and converting the array
`[1, simple-string, 2]` to integers fails with the first element failure,
`DataTypeMismatch(Integer, Status)`, returned unwrapped. -/
theorem C8_typed_projections_witness :
    tryFrom_i64 (.Array none) = .error (.DataTypeMismatch .Integer .Array) ∧
    tryFrom_array tryFrom_i64 (.Array (some [.Integer 1, .SimpleString [], .Integer 2])) =
      .error (.DataTypeMismatch .Integer .SimpleString) :=
  ⟨C8_typed_projections.2.2.2.2.2.1,
    C8_typed_projections.2.2.2.2.2.2.2.2 Int tryFrom_i64 [.Integer 1] [1]
      (.SimpleString []) (.DataTypeMismatch .Integer .SimpleString) [.Integer 2] rfl rfl⟩

/-- C2 amended: the wire round trip holds for scalar values carrying no
null marker whose text content is ASCII and, for Status and Error, free of
CRLF pairs: parsing the wire rendering succeeds with exactly the value and
no remaining bytes. The quantification runs over the program's value
domain — the full `i64` range for integers (`i64::MIN` round-trips by the
release build's double wrap) and representable lengths for bulk strings —
which `roundTripScalar` makes explicit because the embedding's `Int` and
`List` admit ghost values no program run can hold. (Values containing a
present aggregate fail the claim because of the formatter's extra trailing
CRLF, and non-ASCII content fails because the length header counts UTF-8
bytes while the parser reads one character per byte.) -/
theorem C2_scalar_round_trip (v : RESPValue) (h : roundTripScalar v = true) :
    RESPValue_parse (formatWire v) = .ok (v, []) := by
  cases v with
  | Integer i =>
    have hrange : -9223372036854775808 ≤ i ∧ i < 9223372036854775808 := by
      simpa [roundTripScalar] using h
    have hw : formatWire (.Integer i) = 58 :: (intToBytes i ++ 13 :: 10 :: []) := by
      rw [formatWire, format]
      simp
    rw [hw, parse_cons_integer, parse_integer_value_intToBytes i [] hrange.1 hrange.2]
  | BulkString os =>
    cases os with
    | none => simp [roundTripScalar] at h
    | some s =>
      have h2 : (∀ c ∈ s, c < 128) ∧ s.length < 9223372036854775808 := by
        simpa [roundTripScalar, List.all_eq_true, decide_eq_true_eq] using h
      have hascii := h2.1
      have hw : formatWire (.BulkString (some s)) =
          36 :: (natToBytes s.length ++ 13 :: 10 :: (s ++ 13 :: 10 :: [])) := by
        rw [formatWire, format]
        simp [utf8Encode_ascii s hascii, utf8Length_ascii s hascii]
      rw [hw, parse_cons_bulk, parse_bulk_string_contents,
        parse_array_len_natToBytes s.length _ h2.2]
      have hlt : ¬((s ++ 13 :: 10 :: [] : List Nat).length ≤ s.length) := by simp
      simp only [hlt, if_false]
      rw [List.drop_left, List.take_left]
      rfl
  | SimpleString s =>
    have h2 : (∀ c ∈ s, c < 128) ∧ hasCRLF s = false := by
      simpa [roundTripScalar] using h
    have hascii := h2.1
    have hcrlf := h2.2
    have hw : formatWire (.SimpleString s) = 43 :: (s ++ 13 :: 10 :: []) := by
      rw [formatWire, format]
      simp [utf8Encode_ascii s hascii]
    rw [hw, parse_cons_simple, parse_simple_string_contents,
      simple_string_loop_terminated s [] [] hcrlf]
    rfl
  | Error s =>
    have h2 : (∀ c ∈ s, c < 128) ∧ hasCRLF s = false := by
      simpa [roundTripScalar] using h
    have hascii := h2.1
    have hcrlf := h2.2
    have hw : formatWire (.Error s) = 45 :: (s ++ 13 :: 10 :: []) := by
      rw [formatWire, format]
      simp [utf8Encode_ascii s hascii]
    rw [hw, parse_cons_error, parse_simple_string_contents,
      simple_string_loop_terminated s [] [] hcrlf]
    rfl
  | Array os => cases os <;> simp [roundTripScalar] at h

/-- C2 witness: the bulk string "hello" is a null-free scalar in the
round-trip fragment, and parsing its wire rendering returns it exactly with
no remaining bytes. -/
theorem C2_scalar_round_trip_witness :
    roundTripScalar (.BulkString (some [104, 101, 108, 108, 111])) = true ∧
    RESPValue_parse (formatWire (.BulkString (some [104, 101, 108, 108, 111]))) =
      .ok (.BulkString (some [104, 101, 108, 108, 111]), []) :=
  ⟨by decide, C2_scalar_round_trip _ (by decide)⟩

/-! ## Behaviour checks mirroring the Rust unit-test suite

Each theorem below evaluates the embedding on the byte sequence of one of
the unit tests in `src/lib.rs` and states the exact outcome that test
asserts, tying the embedding to the source code's own test suite. -/

/-- Rust test_parse_bulk_string: both with and without trailing bytes. -/
theorem rust_test_parse_bulk_string :
    RESPValue_parse [36, 53, 13, 10, 104, 101, 108, 108, 111, 13, 10, 114, 101, 115, 116] =
      .ok (.BulkString (some [104, 101, 108, 108, 111]), [114, 101, 115, 116]) ∧
    RESPValue_parse [36, 53, 13, 10, 104, 101, 108, 108, 111, 13, 10] =
      .ok (.BulkString (some [104, 101, 108, 108, 111]), []) :=
  ⟨rfl, rfl⟩

/-- Rust test_parse_null_bulk_string: `$-1\r\nrest`. -/
theorem rust_test_parse_null_bulk_string :
    RESPValue_parse [36, 45, 49, 13, 10, 114, 101, 115, 116] =
      .ok (.BulkString none, [114, 101, 115, 116]) := rfl

/-- Rust test_parse_bulk_string_negative_len: `$-5\r\n...` is rejected. -/
theorem rust_test_parse_bulk_string_negative_len :
    RESPValue_parse [36, 45, 53, 13, 10, 104, 101, 108, 108, 111, 13, 10, 114] =
      .err .NegativeValueLength := rfl

/-- Rust test_parse_bulk_string_len_missing_clrf: a non-digit inside the
length field is reported with that character. -/
theorem rust_test_parse_bulk_string_len_missing_clrf :
    RESPValue_parse [36, 53, 104, 101, 108, 108, 111, 13, 10, 114] =
      .err (.UnexpectedNonNumericCharacter 104) := rfl

/-- Rust test_parse_array: `*2\r\n$5\r\nhello\r\n$5\r\nworld\r\n`, also the
scenario of the spec, parses to the two-element bulk-string array with
empty remainder. -/
theorem rust_test_parse_array :
    RESPValue_parse [42, 50, 13, 10, 36, 53, 13, 10, 104, 101, 108, 108, 111, 13, 10,
        36, 53, 13, 10, 119, 111, 114, 108, 100, 13, 10] =
      .ok (.Array (some [.BulkString (some [104, 101, 108, 108, 111]),
        .BulkString (some [119, 111, 114, 108, 100])]), []) := rfl

/-- Rust test_parse_null_array: `*-1\r\nrest`. -/
theorem rust_test_parse_null_array :
    RESPValue_parse [42, 45, 49, 13, 10, 114, 101, 115, 116] =
      .ok (.Array none, [114, 101, 115, 116]) := rfl

/-- Rust test_parse_mixed_array: `*4\r\n$5\r\nhello\r\n:123\r\n-ERROR\r\n+Simple\r\nrest`. -/
theorem rust_test_parse_mixed_array :
    RESPValue_parse [42, 52, 13, 10, 36, 53, 13, 10, 104, 101, 108, 108, 111, 13, 10,
        58, 49, 50, 51, 13, 10, 45, 69, 82, 82, 79, 82, 13, 10,
        43, 83, 105, 109, 112, 108, 101, 13, 10, 114, 101, 115, 116] =
      .ok (.Array (some [.BulkString (some [104, 101, 108, 108, 111]), .Integer 123,
        .Error [69, 82, 82, 79, 82], .SimpleString [83, 105, 109, 112, 108, 101]]),
        [114, 101, 115, 116]) := rfl

/-- Rust test_parse_nested_array: arrays nest and report the correct
trailing remainder, the depth property of the spec. -/
theorem rust_test_parse_nested_array :
    RESPValue_parse [42, 50, 13, 10, 36, 53, 13, 10, 104, 101, 108, 108, 111, 13, 10,
        42, 50, 13, 10, 58, 49, 50, 51, 13, 10,
        42, 50, 13, 10, 58, 52, 53, 54, 13, 10,
        43, 83, 105, 109, 112, 108, 101, 13, 10, 114, 101, 115, 116] =
      .ok (.Array (some [.BulkString (some [104, 101, 108, 108, 111]),
        .Array (some [.Integer 123,
          .Array (some [.Integer 456, .SimpleString [83, 105, 109, 112, 108, 101]])])]),
        [114, 101, 115, 116]) := rfl

/-- Rust test_parse_array_negative_len and test_parse_array_too_few_elements
and test_parse_array_malformed_element. -/
theorem rust_test_parse_array_failures :
    RESPValue_parse [42, 45, 50, 13, 10, 36, 53, 13, 10, 104, 101, 108, 108, 111, 13, 10] =
      .err .NegativeValueLength ∧
    RESPValue_parse [42, 50, 13, 10, 36, 53, 13, 10, 104, 101, 108, 108, 111, 13, 10] =
      .err .NotEnoughBytes ∧
    RESPValue_parse [42, 50, 13, 10, 36, 53, 13, 10, 104, 101, 108, 108, 111, 111, 111, 111,
        13, 10, 36, 53, 13, 10, 119, 111, 114, 108, 100, 13, 10] =
      .err .MissingCLRF :=
  ⟨rfl, rfl, rfl⟩

/-- Rust test_parse_integer and test_parse_integer_error. -/
theorem rust_test_parse_integer :
    RESPValue_parse [58, 49, 50, 51, 13, 10] = .ok (.Integer 123, []) ∧
    RESPValue_parse [58, 45, 49, 50, 51, 13, 10] = .ok (.Integer (-123), []) ∧
    RESPValue_parse [58, 49, 50, 51] = .err .MissingCLRF ∧
    RESPValue_parse [58, 49, 50, 108, 50, 51, 13, 10] =
      .err (.UnexpectedNonNumericCharacter 108) :=
  ⟨rfl, rfl, rfl, rfl⟩

/-- Rust test_parse_simple_string, test_parse_simple_string_error,
test_parse_error and test_parse_error_with_intermediate_carriage_return. -/
theorem rust_test_parse_simple_string_and_error :
    RESPValue_parse [43, 79, 75, 13, 10] = .ok (.SimpleString [79, 75], []) ∧
    RESPValue_parse [43, 79, 75] = .err .MissingCLRF ∧
    RESPValue_parse [43, 79, 75, 79, 75, 79, 75, 13] = .err .MissingCLRF ∧
    RESPValue_parse [45, 69, 82, 82, 79, 82, 13, 10] =
      .ok (.Error [69, 82, 82, 79, 82], []) ∧
    RESPValue_parse [45, 69, 82, 82, 79, 82, 13, 66, 65, 68, 13, 10] =
      .ok (.Error [69, 82, 82, 79, 82, 13, 66, 65, 68], []) :=
  ⟨rfl, rfl, rfl, rfl, rfl⟩

/-- Rust test_parse_data_type and test_parse_data_type_error. -/
theorem rust_test_parse_data_type :
    RESPDataType_try_from 43 = .ok .SimpleString ∧
    RESPDataType_try_from 45 = .ok .Error ∧
    RESPDataType_try_from 58 = .ok .Integer ∧
    RESPDataType_try_from 36 = .ok .BulkString ∧
    RESPDataType_try_from 42 = .ok .Array ∧
    RESPDataType_try_from 120 = .err (.UnknownDataType 120) ∧
    RESPDataType_try_from 97 = .err (.UnknownDataType 97) :=
  ⟨rfl, rfl, rfl, rfl, rfl, rfl, rfl⟩

/-- Rust test_try_into_i64, test_try_into_bulk_string, test_try_into_array
and their failure variants. -/
theorem rust_test_try_into :
    tryFrom_i64 (.Integer 123) = .ok 123 ∧
    tryFrom_i64 (.SimpleString [49, 50, 51]) =
      .error (.DataTypeMismatch .Integer .SimpleString) ∧
    tryFrom_BulkString (.BulkString none) = .ok none ∧
    tryFrom_BulkString (.Array none) = .error (.DataTypeMismatch .BulkString .Array) ∧
    tryFrom_array tryFrom_i64 (.Array (some [.Integer 123, .Integer 456])) =
      .ok (some [123, 456]) ∧
    tryFrom_array tryFrom_i64 (.Integer 123) =
      .error (.DataTypeMismatch .Array .Integer) :=
  ⟨rfl, rfl, rfl, rfl, rfl, rfl⟩

/-! ## Fuel adequacy

The theorems below justify the fuel discipline of `parseF`: a successful
parse always consumes at least the tag byte, so any fuel exceeding the
input length gives the same result as the canonical `bytes.length + 1`
used by `RESPValue_parse`. The fuel is therefore a termination device
only; it never changes the observable behaviour of the embedding. -/

theorem validate_clrf_ok_length (bytes r : List Nat) (h : validate_clrf bytes = .ok r) :
    bytes.length = r.length + 2 := by
  cases bytes with
  | nil => exact PResult.noConfusion h
  | cons a t =>
    cases t with
    | nil => exact PResult.noConfusion h
    | cons b t2 =>
      rw [validate_clrf] at h
      by_cases hc : a = 13 ∧ b = 10
      · rw [if_pos hc] at h
        injection h with h0
        rw [← h0]
        simp
      · rw [if_neg hc] at h
        exact PResult.noConfusion h

theorem scan_digits_ok_length (bytes : List Nat) (acc n : Int) (r : List Nat)
    (h : scan_digits acc bytes = .ok (n, r)) : r.length ≤ bytes.length := by
  induction bytes generalizing acc with
  | nil =>
    rw [scan_digits] at h
    injection h with h0
    injection h0 with h1 h2
    rw [← h2]
  | cons d t ih =>
    rw [scan_digits] at h
    by_cases h13 : d = 13
    · rw [if_pos h13] at h
      injection h with h0
      injection h0 with h1 h2
      rw [← h2]
    · rw [if_neg h13] at h
      by_cases hr : d < 48 ∨ 57 < d
      · rw [if_pos hr] at h
        exact PResult.noConfusion h
      · rw [if_neg hr] at h
        exact le_trans (ih _ h) (by simp)

theorem parse_integer_value_ok_length (bytes : List Nat) (n : Int) (r : List Nat)
    (h : parse_integer_value bytes = .ok (n, r)) : r.length < bytes.length := by
  cases bytes with
  | nil => exact PResult.noConfusion h
  | cons b0 t =>
    rw [parse_integer_value] at h
    dsimp only at h
    cases hscan : scan_digits 0 (if b0 = 45 then t else b0 :: t) with
    | ok p =>
      obtain ⟨num, bytes2⟩ := p
      rw [hscan] at h
      dsimp only at h
      cases hval : validate_clrf bytes2 with
      | ok r2 =>
        rw [hval] at h
        injection h with h0
        injection h0 with h1 h2
        have hlen2 := validate_clrf_ok_length bytes2 r2 hval
        have hlen1 := scan_digits_ok_length _ _ _ _ hscan
        have hif : (if b0 = 45 then t else b0 :: t).length ≤ t.length + 1 := by
          by_cases hb : b0 = 45
          · simp [hb]
          · simp [hb]
        rw [← h2]
        simp only [List.length_cons]
        omega
      | err e => rw [hval] at h; exact PResult.noConfusion h
      | fault => rw [hval] at h; exact PResult.noConfusion h
    | err e => rw [hscan] at h; exact PResult.noConfusion h
    | fault => rw [hscan] at h; exact PResult.noConfusion h

theorem parse_array_len_ok_length (bytes : List Nat) (l : Option Nat) (r : List Nat)
    (h : parse_array_len bytes = .ok (l, r)) : r.length < bytes.length := by
  rw [parse_array_len] at h
  cases hi : parse_integer_value bytes with
  | ok p =>
    obtain ⟨len, rest⟩ := p
    rw [hi] at h
    dsimp only at h
    have := parse_integer_value_ok_length bytes len rest hi
    by_cases h0 : 0 ≤ len
    · rw [if_pos h0] at h
      injection h with hp
      injection hp with h1 h2
      rw [← h2]
      exact this
    · rw [if_neg h0] at h
      by_cases h1 : len = -1
      · rw [if_pos h1] at h
        injection h with hp
        injection hp with h2 h3
        rw [← h3]
        exact this
      · rw [if_neg h1] at h
        exact PResult.noConfusion h
  | err e => rw [hi] at h; exact PResult.noConfusion h
  | fault => rw [hi] at h; exact PResult.noConfusion h

theorem validate_clrf_ne_fault (bytes : List Nat) : validate_clrf bytes ≠ .fault := by
  cases bytes with
  | nil => exact fun h => PResult.noConfusion h
  | cons a t =>
    cases t with
    | nil => exact fun h => PResult.noConfusion h
    | cons b t2 =>
      rw [validate_clrf]
      by_cases hc : a = 13 ∧ b = 10
      · rw [if_pos hc]; exact fun h => PResult.noConfusion h
      · rw [if_neg hc]; exact fun h => PResult.noConfusion h

theorem parse_bulk_string_contents_ok_length (bytes : List Nat)
    (s : Option (List Nat)) (r : List Nat)
    (h : parse_bulk_string_contents bytes = .ok (s, r)) : r.length < bytes.length := by
  rw [parse_bulk_string_contents] at h
  cases hal : parse_array_len bytes with
  | ok p =>
    obtain ⟨lenOpt, rest⟩ := p
    rw [hal] at h
    have hrest := parse_array_len_ok_length bytes lenOpt rest hal
    cases lenOpt with
    | some len =>
      dsimp only at h
      by_cases hle : rest.length ≤ len
      · rw [if_pos hle] at h
        exact PResult.noConfusion h
      · rw [if_neg hle] at h
        cases hval : validate_clrf (rest.drop len) with
        | ok r2 =>
          rw [hval] at h
          injection h with h0
          injection h0 with h1 h2
          have := validate_clrf_ok_length _ _ hval
          have hdrop : (rest.drop len).length ≤ rest.length := by simp
          rw [← h2]
          omega
        | err e => rw [hval] at h; exact PResult.noConfusion h
        | fault => rw [hval] at h; exact PResult.noConfusion h
    | none =>
      injection h with h0
      injection h0 with h1 h2
      rw [← h2]
      exact hrest
  | err e => rw [hal] at h; exact PResult.noConfusion h
  | fault => rw [hal] at h; exact PResult.noConfusion h

theorem simple_string_loop_ok_length (bytes acc s r : List Nat)
    (h : simple_string_loop acc bytes = .ok (s, r)) : r.length < bytes.length := by
  induction bytes generalizing acc with
  | nil =>
    rw [simple_string_loop] at h
    exact PResult.noConfusion h
  | cons b t ih =>
    rw [simple_string_loop] at h
    cases hval : validate_clrf (b :: t) with
    | ok rest =>
      rw [hval] at h
      injection h with h0
      injection h0 with h1 h2
      have := validate_clrf_ok_length _ _ hval
      rw [← h2]
      omega
    | err e =>
      rw [hval] at h
      dsimp only at h
      by_cases hemp : t.isEmpty
      · rw [if_pos hemp] at h
        exact PResult.noConfusion h
      · rw [if_neg hemp] at h
        exact Nat.lt_trans (ih _ h) (by simp)
    | fault => exact absurd hval (validate_clrf_ne_fault _)

theorem elems_loop_ok_length (p : List Nat → ParseResult (RESPValue × List Nat))
    (hp : ∀ b v r, p b = .ok (v, r) → r.length < b.length) :
    ∀ (n : Nat) (bytes : List Nat) (vs : List RESPValue) (r : List Nat),
      elems_loop p n bytes = .ok (vs, r) → r.length ≤ bytes.length := by
  intro n
  induction n with
  | zero =>
    intro bytes vs r h
    rw [elems_loop] at h
    injection h with h0
    injection h0 with h1 h2
    rw [← h2]
  | succ m ih =>
    intro bytes vs r h
    rw [elems_loop] at h
    cases hb : p bytes with
    | ok q =>
      obtain ⟨v, rest⟩ := q
      rw [hb] at h
      dsimp only at h
      cases he : elems_loop p m rest with
      | ok q2 =>
        obtain ⟨vs2, r2⟩ := q2
        rw [he] at h
        injection h with h0
        injection h0 with h1 h2
        have hle := ih rest vs2 r2 he
        have hlt := hp bytes v rest hb
        rw [← h2]
        omega
      | err e => rw [he] at h; exact PResult.noConfusion h
      | fault => rw [he] at h; exact PResult.noConfusion h
    | err e => rw [hb] at h; exact PResult.noConfusion h
    | fault => rw [hb] at h; exact PResult.noConfusion h

theorem RESPDataType_from_bytes_ok (bytes : List Nat) (t : RESPDataType) (rest : List Nat)
    (h : RESPDataType_from_bytes bytes = .ok (t, rest)) : bytes.length = rest.length + 1 := by
  cases bytes with
  | nil => exact PResult.noConfusion h
  | cons b tail =>
    rw [RESPDataType_from_bytes] at h
    cases htf : RESPDataType_try_from b with
    | ok t2 =>
      rw [htf] at h
      injection h with h0
      injection h0 with h1 h2
      rw [← h2]
      simp
    | err e => rw [htf] at h; exact PResult.noConfusion h
    | fault => rw [htf] at h; exact PResult.noConfusion h

theorem parseF_ok_length :
    ∀ (f : Nat) (bytes : List Nat) (v : RESPValue) (rest : List Nat),
      parseF f bytes = .ok (v, rest) → rest.length < bytes.length := by
  intro f
  induction f with
  | zero => intro bytes v rest h; exact PResult.noConfusion h
  | succ f ih =>
    intro bytes v rest h
    rw [parseF] at h
    cases hfb : RESPDataType_from_bytes bytes with
    | ok q =>
      obtain ⟨dt, tail⟩ := q
      rw [hfb] at h
      have htail := RESPDataType_from_bytes_ok bytes dt tail hfb
      cases dt with
      | Integer =>
        dsimp only at h
        cases hi : parse_integer_value tail with
        | ok q2 =>
          obtain ⟨i, r2⟩ := q2
          rw [hi] at h
          injection h with h0
          injection h0 with h1 h2
          have := parse_integer_value_ok_length tail i r2 hi
          rw [← h2]
          omega
        | err e => rw [hi] at h; exact PResult.noConfusion h
        | fault => rw [hi] at h; exact PResult.noConfusion h
      | BulkString =>
        dsimp only at h
        cases hi : parse_bulk_string_contents tail with
        | ok q2 =>
          obtain ⟨s, r2⟩ := q2
          rw [hi] at h
          injection h with h0
          injection h0 with h1 h2
          have := parse_bulk_string_contents_ok_length tail s r2 hi
          rw [← h2]
          omega
        | err e => rw [hi] at h; exact PResult.noConfusion h
        | fault => rw [hi] at h; exact PResult.noConfusion h
      | SimpleString =>
        dsimp only at h
        cases hi : parse_simple_string_contents tail with
        | ok q2 =>
          obtain ⟨s, r2⟩ := q2
          rw [hi] at h
          injection h with h0
          injection h0 with h1 h2
          have := simple_string_loop_ok_length tail [] s r2 hi
          rw [← h2]
          omega
        | err e => rw [hi] at h; exact PResult.noConfusion h
        | fault => rw [hi] at h; exact PResult.noConfusion h
      | Error =>
        dsimp only at h
        cases hi : parse_simple_string_contents tail with
        | ok q2 =>
          obtain ⟨s, r2⟩ := q2
          rw [hi] at h
          injection h with h0
          injection h0 with h1 h2
          have := simple_string_loop_ok_length tail [] s r2 hi
          rw [← h2]
          omega
        | err e => rw [hi] at h; exact PResult.noConfusion h
        | fault => rw [hi] at h; exact PResult.noConfusion h
      | Array =>
        dsimp only at h
        cases hal : parse_array_len tail with
        | ok q2 =>
          obtain ⟨lenOpt, r1⟩ := q2
          rw [hal] at h
          have hr1 := parse_array_len_ok_length tail lenOpt r1 hal
          cases lenOpt with
          | some len =>
            dsimp only at h
            cases he : elems_loop (fun b => parseF f b) len r1 with
            | ok q3 =>
              obtain ⟨vs, r2⟩ := q3
              rw [he] at h
              injection h with h0
              injection h0 with h1 h2
              have := elems_loop_ok_length (fun b => parseF f b)
                (fun b v r hh => ih b v r hh) len r1 vs r2 he
              rw [← h2]
              omega
            | err e => rw [he] at h; exact PResult.noConfusion h
            | fault => rw [he] at h; exact PResult.noConfusion h
          | none =>
            injection h with h0
            injection h0 with h1 h2
            rw [← h2]
            omega
        | err e => rw [hal] at h; exact PResult.noConfusion h
        | fault => rw [hal] at h; exact PResult.noConfusion h
    | err e => rw [hfb] at h; exact PResult.noConfusion h
    | fault => rw [hfb] at h; exact PResult.noConfusion h

theorem RESPDataType_from_bytes_ok_rest (b : Nat) (t : List Nat) (dt : RESPDataType)
    (rest : List Nat) (h : RESPDataType_from_bytes (b :: t) = .ok (dt, rest)) : rest = t := by
  rw [RESPDataType_from_bytes] at h
  cases htf : RESPDataType_try_from b with
  | ok t2 =>
    rw [htf] at h
    injection h with h0
    injection h0 with h1 h2
    exact h2.symm
  | err e => rw [htf] at h; exact PResult.noConfusion h
  | fault => rw [htf] at h; exact PResult.noConfusion h

theorem elems_loop_congr (p q : List Nat → ParseResult (RESPValue × List Nat)) (L : Nat)
    (hpq : ∀ b : List Nat, b.length ≤ L → p b = q b)
    (hp : ∀ b v r, p b = .ok (v, r) → r.length < b.length) :
    ∀ (n : Nat) (bytes : List Nat), bytes.length ≤ L →
      elems_loop p n bytes = elems_loop q n bytes := by
  intro n
  induction n with
  | zero => intro bytes hb; rfl
  | succ m ih =>
    intro bytes hb
    rw [elems_loop, elems_loop, ← hpq bytes hb]
    cases hpb : p bytes with
    | ok pr =>
      obtain ⟨v, rest⟩ := pr
      have hrest : rest.length ≤ L := le_trans (le_of_lt (hp bytes v rest hpb)) hb
      dsimp only
      rw [ih rest hrest]
    | err e => rfl
    | fault => rfl

theorem parseF_fuel_ext :
    ∀ (N : Nat) (bytes : List Nat), bytes.length ≤ N →
      ∀ f g : Nat, bytes.length < f → bytes.length < g → parseF f bytes = parseF g bytes := by
  intro N
  induction N with
  | zero =>
    intro bytes hb f g hf hg
    have hnil : bytes = [] := List.length_eq_zero.mp (Nat.le_zero.mp hb)
    subst hnil
    cases f with
    | zero => omega
    | succ f =>
      cases g with
      | zero => omega
      | succ g => rfl
  | succ N ih =>
    intro bytes hb f g hf hg
    cases f with
    | zero => omega
    | succ f =>
      cases g with
      | zero => omega
      | succ g =>
        cases bytes with
        | nil => rfl
        | cons b tail =>
          rw [parseF, parseF]
          cases hfb : RESPDataType_from_bytes (b :: tail) with
          | ok q =>
            obtain ⟨dt, tail2⟩ := q
            have htail2 : tail2 = tail := RESPDataType_from_bytes_ok_rest b tail dt tail2 hfb
            subst htail2
            cases dt with
            | Integer => rfl
            | BulkString => rfl
            | SimpleString => rfl
            | Error => rfl
            | Array =>
              dsimp only
              cases hal : parse_array_len tail2 with
              | ok q2 =>
                obtain ⟨lenOpt, r1⟩ := q2
                cases lenOpt with
                | some len =>
                  have hr1 : r1.length < tail2.length :=
                    parse_array_len_ok_length tail2 (some len) r1 hal
                  have hb2 : tail2.length + 1 ≤ N + 1 := by simpa using hb
                  have hf2 : tail2.length + 1 < f + 1 := by simpa using hf
                  have hg2 : tail2.length + 1 < g + 1 := by simpa using hg
                  have hcongr := elems_loop_congr
                    (fun b2 => parseF f b2) (fun b2 => parseF g b2) r1.length
                    (fun b2 hb3 => ih b2 (by omega) f g (by omega) (by omega))
                    (fun b2 v r hh => parseF_ok_length f b2 v r hh)
                    len r1 le_rfl
                  dsimp only
                  rw [hcongr]
                | none => rfl
              | err e => rfl
              | fault => rfl
          | err e => rfl
          | fault => rfl

/-- The fuel passed to `parseF` is irrelevant as soon as it exceeds the
input length: any such fuel computes exactly `RESPValue_parse`. The fuel of
the embedding is therefore a termination device only and cannot manufacture
outcomes (in particular no spurious `fault`) that the Rust recursion would
not produce. -/
theorem parseF_adequate (f : Nat) (bytes : List Nat) (h : bytes.length < f) :
    parseF f bytes = RESPValue_parse bytes :=
  parseF_fuel_ext bytes.length bytes le_rfl f (bytes.length + 1) h (by omega)
